import Mathlib

/-!
# Fama-MacBeth two-pass estimation pipeline: a shallow embedding

This file embeds the estimation pipeline of the Fama-MacBeth tutorial
notebook: a market simulator, a per-asset time-series OLS stage, a
per-period cross-sectional OLS stage, and a summary/significance stage.

Fixed-shape numpy arrays are embedded as functions out of `Fin`;
the exact-arithmetic core (simulation and both regression stages) works
over `ℚ`, while the summary stage, whose source uses square roots, works
over `ℝ`.  The external ordinary-least-squares solver
(`sklearn.linear_model.LinearRegression` with its default
`fit_intercept=True`) is embedded by its mathematical contract: the
normal-equations solution for a single regressor plus intercept, whose
slope in Cramer form is `(n·Σxy − Σx·Σy) / (n·Σx² − (Σx)²)`.  When the
denominator vanishes the quotient is `0` under Lean's division
convention, which agrees with the minimum-norm least-squares solution
the library returns on centered degenerate data.
-/

namespace FamaMacbeth

/-- Sum of the entries of a fixed-length vector. -/
def vsum {n : ℕ} (v : Fin n → ℚ) : ℚ := ∑ i, v i

/-- Dot product of two fixed-length vectors. -/
def dot {n : ℕ} (x y : Fin n → ℚ) : ℚ := ∑ i, x i * y i

/-- Slope coefficient `model.coef_[0]` of `LinearRegression().fit(x, y)`
(single regressor, intercept fitted by default): the Cramer-form solution
of the 2×2 normal equations. -/
def olsSlope {n : ℕ} (x y : Fin n → ℚ) : ℚ :=
  ((n : ℚ) * dot x y - vsum x * vsum y) / ((n : ℚ) * dot x x - vsum x * vsum x)

/-- Intercept `model.intercept_` of the same fit. -/
def olsIntercept {n : ℕ} (x y : Fin n → ℚ) : ℚ :=
  (vsum y - olsSlope x y * vsum x) / (n : ℚ)

/-- The full fitted model `(model.intercept_, model.coef_[0])`. -/
def fitLinear {n : ℕ} (x y : Fin n → ℚ) : ℚ × ℚ :=
  (olsIntercept x y, olsSlope x y)

/-- Arithmetic mean of a vector (`np.mean`). -/
def mean {n : ℕ} (v : Fin n → ℚ) : ℚ := vsum v / (n : ℚ)

/-- Population covariance of two equal-length series
(sum of centered cross products over `n`). -/
def covPop {n : ℕ} (x y : Fin n → ℚ) : ℚ :=
  (∑ i, (x i - mean x) * (y i - mean y)) / (n : ℚ)

/-- Population variance of a series: `covPop x x`. -/
def varPop {n : ℕ} (x : Fin n → ℚ) : ℚ := covPop x x

/-- Stage 2, time-series estimator: the loop
`for i in range(N): y = data[:, i]; model.fit(mkt, y); b.append(model.coef_[0])`.
`data i j` is the return of asset `j` at period `i` (the `T×N` panel);
the `j`-th output is the slope of column `j` regressed on the factor series. -/
def tsEstimate (T N : ℕ) (mkt : Fin T → ℚ) (data : Fin T → Fin N → ℚ) :
    Fin N → ℚ :=
  fun j => olsSlope mkt (fun i => data i j)

/-- Stage 3, cross-sectional estimator: the loop
`for i in range(T): y = data[i, :]; model.fit(b, y); res.append(model.coef_[0])`.
The `i`-th output is the slope of period `i`'s cross-section of returns
regressed on the fixed sensitivity vector `b`. -/
def csEstimate (T N : ℕ) (b : Fin N → ℚ) (data : Fin T → Fin N → ℚ) :
    Fin T → ℚ :=
  fun i => olsSlope b (fun j => data i j)

/-- The two estimation passes chained as in the notebook: stage 2 produces
`b`, stage 3 consumes the same `b` at every period. -/
def famaMacbeth (T N : ℕ) (mkt : Fin T → ℚ) (data : Fin T → Fin N → ℚ) :
    (Fin N → ℚ) × (Fin T → ℚ) :=
  let b := tsEstimate T N mkt data
  (b, csEstimate T N b data)

/-! ## Algebraic facts about the OLS slope -/

lemma sum_shift_mul {n : ℕ} (x y : Fin n → ℚ) (a b : ℚ) :
    ∑ i, (x i - a) * (y i - b)
      = dot x y - b * vsum x - a * vsum y + (n : ℚ) * (a * b) := by
  unfold dot vsum
  have h : ∀ i, (x i - a) * (y i - b)
      = x i * y i - b * x i - a * y i + a * b := by
    intro i; ring
  simp only [h]
  rw [Finset.sum_add_distrib, Finset.sum_sub_distrib, Finset.sum_sub_distrib,
    ← Finset.mul_sum, ← Finset.mul_sum, Finset.sum_const, Finset.card_univ,
    Fintype.card_fin, nsmul_eq_mul]

lemma covPop_eq {n : ℕ} (hn : (n : ℚ) ≠ 0) (x y : Fin n → ℚ) :
    covPop x y = ((n : ℚ) * dot x y - vsum x * vsum y) / (n : ℚ) ^ 2 := by
  unfold covPop
  rw [sum_shift_mul x y (mean x) (mean y)]
  unfold mean
  field_simp
  ring

lemma div_div_same_cancel (a b c : ℚ) (hc : c ≠ 0) :
    (a / c) / (b / c) = a / b := by
  rcases eq_or_ne b 0 with hb | hb
  · simp [hb]
  · field_simp

/-- The Cramer-form OLS slope equals covariance over variance. -/
lemma olsSlope_eq_cov_div_var {n : ℕ} (hn : (n : ℚ) ≠ 0) (x y : Fin n → ℚ) :
    olsSlope x y = covPop x y / varPop x := by
  rw [varPop, covPop_eq hn x y, covPop_eq hn x x,
    div_div_same_cancel _ _ _ (pow_ne_zero 2 hn)]
  rfl

/-! ## Market simulator -/

/-- The notebook's generation constants: `rf = 0.01`, `dt = 1/252`,
`np.random.normal(1, 0.25, (N,1))` for the betas,
`mkt = 0.06*dt + standard_normal`, `s = np.sqrt(0.5*dt)` for the residual
scale.  `s` is held as a field; its source value `√(0.5/252)` is
irrational, so `defaultParams` below carries a rational stand-in — no
claim depends on the numeric value of `s`. -/
structure MarketParams where
  rf : ℚ
  dt : ℚ
  beta_mu : ℚ
  beta_sigma : ℚ
  mkt_mu : ℚ
  s : ℚ

/-- The concrete constants declared in the notebook (with a rational
stand-in for the irrational residual scale `s = √(0.5/252) ≈ 0.044544`). -/
def defaultParams : MarketParams :=
  { rf := 1/100, dt := 1/252, beta_mu := 1, beta_sigma := 1/4,
    mkt_mu := 6/100, s := 44544/1000000 }

/-- The three structures the simulator produces: the `N`-length true
sensitivity vector, the `T`-length factor series, and the `T×N` panel. -/
structure SimOutput (N T : ℕ) where
  beta : Fin N → ℚ
  mkt : Fin T → ℚ
  data : Fin T → Fin N → ℚ

/-- The simulation cell, with the normal draws made explicit inputs:
`zb`, `zm`, `ze` are the standard-normal streams behind
`np.random.normal(1, 0.25, (N,1))`, `np.random.standard_normal((T,1))`
and `np.random.standard_normal((T,N))`.  Then
`beta_true = beta_mu + beta_sigma * zb`, `mkt = mkt_mu*dt + zm`, and
`data = rf*dt + transpose(beta_true) * mkt + s * ze`. -/
def simulate (N T : ℕ) (p : MarketParams)
    (zb : Fin N → ℚ) (zm : Fin T → ℚ) (ze : Fin T → Fin N → ℚ) :
    SimOutput N T :=
  let beta : Fin N → ℚ := fun j => p.beta_mu + p.beta_sigma * zb j
  let mkt : Fin T → ℚ := fun i => p.mkt_mu * p.dt + zm i
  { beta := beta
  , mkt := mkt
  , data := fun i j => p.rf * p.dt + beta j * mkt i + p.s * ze i j }

/-- Modelled from the spec: the seedable pseudo-random source (spec §6)
behind `np.random.seed(42)` and the subsequent global draws, which is
external library state, not repository code.  The draw at index `k` is a
pure function of `(seed, k)`; the concrete formula is a
linear-congruential stand-in, and no claim depends on its values — only
on the determinism the spec requires. -/
def prngDraw (seed k : ℕ) : ℚ :=
  (((1103515245 * (seed + k) + 12345) % 2147483648 : ℕ) : ℚ) / 2147483648

/-- The notebook's seeded run: the global generator is seeded once and
consumed sequentially — first `N` draws for the betas, then `T` for the
factor series, then `T×N` (row-major) for the residual noise. -/
def simulateSeeded (seed N T : ℕ) (p : MarketParams) : SimOutput N T :=
  simulate N T p
    (fun j => prngDraw seed j)
    (fun i => prngDraw seed (N + i))
    (fun i j => prngDraw seed (N + T + i * N + j))

/-! ## Claims about the two regression stages -/

/-- C1: for every asset `j`, the time-series estimator's `j`-th output is
the OLS slope of asset `j`'s `T`-length return column regressed (with
intercept) on the factor series, i.e. `cov(factor, returns_j) / var(factor)`;
the stage returns the `N`-length vector of these slopes in asset order. -/
theorem tsEstimate_eq_cov_div_var (T N : ℕ) (hT : 0 < T)
    (mkt : Fin T → ℚ) (data : Fin T → Fin N → ℚ) (j : Fin N) :
    tsEstimate T N mkt data j
      = covPop mkt (fun i => data i j) / varPop mkt := by
  have hn : ((T : ℕ) : ℚ) ≠ 0 := Nat.cast_ne_zero.mpr hT.ne'
  exact olsSlope_eq_cov_div_var hn _ _

/-- Witness for C1 at `T = 2`, `N = 1`. -/
theorem tsEstimate_eq_cov_div_var_witness :
    0 < 2 ∧ tsEstimate 2 1 ![2, 4] ![![3], ![7]] 0
      = covPop ![2, 4] (fun i => ![![(3 : ℚ)], ![7]] i 0) / varPop ![2, 4] :=
  ⟨by decide, tsEstimate_eq_cov_div_var 2 1 (by decide) ![2, 4] ![![3], ![7]] 0⟩

/-- C2: for every period `i`, the cross-sectional estimator's `i`-th
output is the OLS slope of the period-`i` cross-section of returns
regressed on the fixed sensitivity vector; the stage returns the
`T`-length vector of premium estimates in period order. -/
theorem csEstimate_eq_cov_div_var (T N : ℕ) (hN : 0 < N)
    (b : Fin N → ℚ) (data : Fin T → Fin N → ℚ) (i : Fin T) :
    csEstimate T N b data i
      = covPop b (fun j => data i j) / varPop b := by
  have hn : ((N : ℕ) : ℚ) ≠ 0 := Nat.cast_ne_zero.mpr hN.ne'
  exact olsSlope_eq_cov_div_var hn _ _

/-- Witness for C2 at `T = 1`, `N = 2`. -/
theorem csEstimate_eq_cov_div_var_witness :
    0 < 2 ∧ csEstimate 1 2 ![2, 4] ![![3, 7]] 0
      = covPop ![2, 4] (fun j => ![![(3 : ℚ), 7]] 0 j) / varPop ![2, 4] :=
  ⟨by decide, csEstimate_eq_cov_div_var 1 2 (by decide) ![2, 4] ![![3, 7]] 0⟩

/-- C10: both stages fit the library-default model with an intercept and
retain only the slope (the first fitted coefficient); the intercept is
discarded, and — because the intercept absorbs any constant shift of the
observations — the discarded component never affects the slope outputs. -/
theorem regressions_keep_slope_only (T N : ℕ)
    (mkt : Fin T → ℚ) (data : Fin T → Fin N → ℚ) (b : Fin N → ℚ) :
    (∀ j, tsEstimate T N mkt data j = (fitLinear mkt (fun i => data i j)).2)
  ∧ (∀ i, csEstimate T N b data i = (fitLinear b (fun j => data i j)).2)
  ∧ (∀ (x y : Fin T → ℚ) (c : ℚ),
      (fitLinear x (fun i => y i + c)).2 = (fitLinear x y).2) := by
  refine ⟨fun j => rfl, fun i => rfl, fun x y c => ?_⟩
  show olsSlope x (fun i => y i + c) = olsSlope x y
  unfold olsSlope dot vsum
  have h1 : (∑ i, x i * (y i + c)) = (∑ i, x i * y i) + c * ∑ i, x i := by
    rw [Finset.mul_sum, ← Finset.sum_add_distrib]
    exact Finset.sum_congr rfl (fun _ _ => by ring)
  have h2 : (∑ i : Fin T, (y i + c)) = (∑ i, y i) + (T : ℚ) * c := by
    rw [Finset.sum_add_distrib, Finset.sum_const, Finset.card_univ,
      Fintype.card_fin, nsmul_eq_mul]
  rw [h1, h2]
  congr 1
  ring

/-- C8: the sensitivity vector produced by stage 2 is the one value that
every one of the `T` per-period regressions of stage 3 reads; in the
functional pipeline nothing is recomputed or mutated — each period's
premium is the slope of the original panel row against that same fixed
vector. -/
theorem famaMacbeth_beta_fixed (T N : ℕ)
    (mkt : Fin T → ℚ) (data : Fin T → Fin N → ℚ) :
    (famaMacbeth T N mkt data).1 = tsEstimate T N mkt data
  ∧ ∀ i : Fin T, (famaMacbeth T N mkt data).2 i
      = olsSlope (famaMacbeth T N mkt data).1 (fun j => data i j) :=
  ⟨rfl, fun _ => rfl⟩

/-- C5 counterexample: at `T = 1` (fewer than two observations) the
time-series estimator does not fail — it produces the full result vector,
with slope `0` for both assets. -/
theorem tsEstimate_single_period_yields_result :
    tsEstimate 1 2 (fun _ => 5) (fun _ _ => 7) 0 = 0
  ∧ tsEstimate 1 2 (fun _ => 5) (fun _ _ => 7) 1 = 0 := by
  constructor <;>
    simp [tsEstimate, olsSlope, dot, vsum, Fin.sum_univ_one]

/-- C5 amended: the source performs no `InsufficientData` check; with a
single observation both estimators return `0` (the degenerate
minimum-norm least-squares slope) for every output slot, rather than
failing. -/
theorem estimators_single_observation_return_zero :
    (∀ (N : ℕ) (mkt : Fin 1 → ℚ) (data : Fin 1 → Fin N → ℚ) (j : Fin N),
        tsEstimate 1 N mkt data j = 0)
  ∧ (∀ (T : ℕ) (b : Fin 1 → ℚ) (data : Fin T → Fin 1 → ℚ) (i : Fin T),
        csEstimate T 1 b data i = 0) := by
  constructor
  · intro N mkt data j
    show olsSlope mkt (fun i => data i j) = 0
    unfold olsSlope dot vsum
    simp [Fin.sum_univ_one]
  · intro T b data i
    show olsSlope b (fun j => data i j) = 0
    unfold olsSlope dot vsum
    simp [Fin.sum_univ_one]

end FamaMacbeth

/-! ## Summary and significance stage (over `ℝ`) -/

namespace FamaMacbeth

/-- `np.mean` over the `T` premium estimates. -/
noncomputable def sampleMeanR {T : ℕ} (xs : Fin T → ℝ) : ℝ :=
  (∑ i, xs i) / (T : ℝ)

/-- Pandas sample variance (`ddof = 1`): centered sum of squares over
`T − 1`. -/
noncomputable def sampleVarR {T : ℕ} (xs : Fin T → ℝ) : ℝ :=
  (∑ i, (xs i - sampleMeanR xs) ^ 2) / ((T : ℝ) - 1)

/-- `df.std()`: square root of the `ddof = 1` sample variance. -/
noncomputable def sampleStdR {T : ℕ} (xs : Fin T → ℝ) : ℝ :=
  Real.sqrt (sampleVarR xs)

/-- The four derived scalars plus the p-value. -/
structure FMSummary where
  mean : ℝ
  sd : ℝ
  se : ℝ
  t : ℝ
  p : ℝ

/-- The summary cells: `se = df.std()/np.sqrt(T)`,
`t_score = df.mean()/se`, `p_value = t.sf(t_score, T)`.  The Student-t
survival function is an external collaborator (scipy), passed in as `sf`;
the code evaluates it at the t-statistic with `T` degrees of freedom. -/
noncomputable def summarize {T : ℕ} (sf : ℝ → ℕ → ℝ) (xs : Fin T → ℝ) :
    FMSummary :=
  let m := sampleMeanR xs
  let sd := sampleStdR xs
  let se := sd / Real.sqrt (T : ℝ)
  let t := m / se
  { mean := m, sd := sd, se := se, t := t, p := sf t T }

end FamaMacbeth

/-! ## Claims about the simulator and the summary stage -/

namespace FamaMacbeth

/-- C4: for every valid input (positive dimensions, non-negative residual
scale), the simulator produces exactly: the `N`-length sensitivity vector
`beta_mu + beta_sigma·z`, the `T`-length factor series `mkt_mu·dt + z`,
and the `T×N` panel whose cell `(i,j)` is the per-period risk-free rate
plus `beta j · mkt i` plus the residual-scaled noise draw. -/
theorem simulate_spec (N T : ℕ) (_hN : 0 < N) (_hT : 0 < T)
    (p : MarketParams) (_hs : 0 ≤ p.s)
    (zb : Fin N → ℚ) (zm : Fin T → ℚ) (ze : Fin T → Fin N → ℚ) :
    (∀ j, (simulate N T p zb zm ze).beta j = p.beta_mu + p.beta_sigma * zb j)
  ∧ (∀ i, (simulate N T p zb zm ze).mkt i = p.mkt_mu * p.dt + zm i)
  ∧ (∀ i j, (simulate N T p zb zm ze).data i j
      = p.rf * p.dt
        + (simulate N T p zb zm ze).beta j * (simulate N T p zb zm ze).mkt i
        + p.s * ze i j) :=
  ⟨fun _ => rfl, fun _ => rfl, fun _ _ => rfl⟩

/-- Witness for C4 at `N = T = 1` with the notebook's constants and zero
noise streams. -/
theorem simulate_spec_witness :
    (0 < 1 ∧ (0 : ℚ) ≤ defaultParams.s)
  ∧ (simulate 1 1 defaultParams (fun _ => 0) (fun _ => 0) (fun _ _ => 0)).mkt 0
      = defaultParams.mkt_mu * defaultParams.dt + 0 :=
  ⟨⟨Nat.one_pos, by norm_num [defaultParams]⟩,
   (simulate_spec 1 1 Nat.one_pos Nat.one_pos defaultParams
      (by norm_num [defaultParams])
      (fun _ => 0) (fun _ => 0) (fun _ _ => 0)).2.1 0⟩

/-- C6 counterexample: at `N = 0` the simulator does not fail — it still
builds its three structures; here its factor series at period `0` is the
concrete value `4201/4200`, and its sensitivity vector is the empty
vector. -/
theorem simulate_zero_assets_yields_result :
    (simulate 0 3 defaultParams (fun j => j.elim0) (fun _ => 1)
        (fun _ j => j.elim0)).mkt 0 = 4201 / 4200
  ∧ (simulate 0 3 defaultParams (fun j => j.elim0) (fun _ => 1)
        (fun _ j => j.elim0)).beta = fun j => j.elim0 := by
  constructor
  · show defaultParams.mkt_mu * defaultParams.dt + 1 = 4201 / 4200
    norm_num [defaultParams]
  · funext j
    exact j.elim0

/-- C6 amended: the source performs no dimension validation; with `N = 0`
or `T = 0` the simulator returns the degenerate structures built by the
same generative equations (an empty sensitivity vector, resp. an empty
factor series and panel) rather than failing with `InvalidDimension`. -/
theorem simulate_no_dimension_check :
    (∀ (T : ℕ) (p : MarketParams) (zb : Fin 0 → ℚ) (zm : Fin T → ℚ)
        (ze : Fin T → Fin 0 → ℚ) (i : Fin T),
        (simulate 0 T p zb zm ze).mkt i = p.mkt_mu * p.dt + zm i)
  ∧ (∀ (N : ℕ) (p : MarketParams) (zb : Fin N → ℚ) (zm : Fin 0 → ℚ)
        (ze : Fin 0 → Fin N → ℚ) (j : Fin N),
        (simulate N 0 p zb zm ze).beta j = p.beta_mu + p.beta_sigma * zb j) :=
  ⟨fun _ _ _ _ _ _ => rfl, fun _ _ _ _ _ _ => rfl⟩

/-- C7: with the random source modelled as a pure stream determined by
the seed, two runs of the seeded simulator with the same seed and the same
inputs produce identical outputs — the same sensitivity vector, factor
series, and return panel. -/
theorem simulateSeeded_reproducible (seedA seedB N T : ℕ) (p : MarketParams)
    (h : seedA = seedB) :
    simulateSeeded seedA N T p = simulateSeeded seedB N T p := by
  rw [h]

/-- Witness for C7 at the notebook's configuration
(seed 42, `N = 2000`, `T = 2520`). -/
theorem simulateSeeded_reproducible_witness :
    42 = 42 ∧ simulateSeeded 42 2000 2520 defaultParams
      = simulateSeeded 42 2000 2520 defaultParams :=
  ⟨rfl, simulateSeeded_reproducible 42 42 2000 2520 defaultParams rfl⟩

/-- C3: given the `T` premium estimates with `T ≥ 2`, the summary stage
returns the sample mean; the sample standard deviation with `T−1`
denominator (stated via its square); a standard error exactly equal to
that standard deviation divided by `√T`; a t-statistic exactly equal to
the mean divided by that standard error; and a p-value equal to the
library's Student-t upper-tail function `sf` evaluated at the t-statistic
with `T` degrees of freedom. -/
theorem summarize_spec {T : ℕ} (hT : 2 ≤ T) (sf : ℝ → ℕ → ℝ)
    (xs : Fin T → ℝ) :
    (summarize sf xs).mean = (∑ i, xs i) / (T : ℝ)
  ∧ (summarize sf xs).sd ^ 2
      = (∑ i, (xs i - (∑ k, xs k) / (T : ℝ)) ^ 2) / ((T : ℝ) - 1)
  ∧ (summarize sf xs).se = (summarize sf xs).sd / Real.sqrt (T : ℝ)
  ∧ (summarize sf xs).t = (summarize sf xs).mean / (summarize sf xs).se
  ∧ (summarize sf xs).p = sf ((summarize sf xs).t) T := by
  refine ⟨rfl, ?_, rfl, rfl, rfl⟩
  have h2 : (2 : ℝ) ≤ (T : ℝ) := by exact_mod_cast hT
  have hvar : 0 ≤ sampleVarR xs := by
    apply div_nonneg (Finset.sum_nonneg fun i _ => sq_nonneg _)
    linarith
  show sampleStdR xs ^ 2 = _
  rw [sampleStdR, Real.sq_sqrt hvar]
  rfl

/-- Witness for C3 at `T = 2` on the premium list `[1, 3]`. -/
theorem summarize_spec_witness :
    2 ≤ 2 ∧ (summarize (fun _ _ => (0 : ℝ)) ![(1 : ℝ), 3]).se
      = (summarize (fun _ _ => (0 : ℝ)) ![(1 : ℝ), 3]).sd
          / Real.sqrt ((2 : ℕ) : ℝ) :=
  ⟨le_refl 2, (summarize_spec (le_refl 2) (fun _ _ => 0) ![(1 : ℝ), 3]).2.2.1⟩

end FamaMacbeth
